import Mathlib

/-!
Verification of the serpy serialization engine.

A shallow embedding of `src/serpy/serializer.py` and `src/serpy/fields.py`.

Python values are modelled by the inductive `Value`; Python exceptions by
`PyError`; fallible Python code returns `Except PyError _`.  Python `dict`s
(which are insertion-ordered and update-in-place on existing keys) are
modelled as association lists `List (String × α)` together with `dictSet`,
which mirrors `d[k] = v` assignment semantics.

Unmodelled corners (no claim depends on them): dotted attribute paths in
`operator.attrgetter`, floating-point values (`FloatField`'s coercion is kept
abstract), and the compile-time `AttributeError` from `getattr` when a
`MethodField` names a missing method (here the looked-up getter raises
`AttributeError` at call time instead).
-/

namespace Serpy

/-- Python exception kinds relevant to the engine.  `Serializer._serialize`
catches exactly `(KeyError, AttributeError)` around the getter call. -/
inductive PyError where
  | keyError
  | attributeError
  | typeError
  | valueError
  | runtimeError (msg : String)
deriving DecidableEq, Repr

/-- Python values, as far as the serializer engine inspects them.
`vcallable r` is a zero-argument callable whose call returns `r`;
`vcallableRaises e` is one whose call raises `e` (used for the `call=True`
invoke step). `vobj` carries attributes, `vdict` carries mapping items. -/
inductive Value where
  | vnone
  | vint (n : Int)
  | vstr (s : String)
  | vbool (b : Bool)
  | vcallable (r : Value)
  | vcallableRaises (e : PyError)
  | vlist (xs : List Value)
  | vdict (items : List (String × Value))
  | vobj (attrs : List (String × Value))

/-- The `result is None` test used by `_serialize`'s required/null gate. -/
def isNone : Value → Bool
  | .vnone => true
  | _ => false

/-- Calling a retrieved value as a zero-argument callable (`result()`).
Non-callables raise `TypeError`, as in Python. -/
def callValue : Value → Except PyError Value
  | .vcallable r => .ok r
  | .vcallableRaises e => .error e
  | _ => .error .typeError

/-- First-occurrence lookup in an association list (Python dict lookup; a
well-formed dict has no duplicate keys, so first occurrence is the entry). -/
def lookupFM : List (String × α) → String → Option α
  | [], _ => none
  | p :: t, k => if p.1 = k then some p.2 else lookupFM t k

/-- Python dict assignment `m[k] = v`: replaces the value in place when the
key is present (keeping its position), appends the pair otherwise. -/
def dictSet (m : List (String × α)) (k : String) (v : α) : List (String × α) :=
  if k ∈ m.map Prod.fst then
    m.map (fun p => if p.1 = k then (k, v) else p)
  else
    m ++ [(k, v)]

/-- Python `m1.update(m2)`: `m2`'s entries assigned into `m1` in order. -/
def dictUpdate (m₁ m₂ : List (String × α)) : List (String × α) :=
  m₂.foldl (fun acc p => dictSet acc p.1 p.2) m₁

/-- State of a `Serializer` instance: the subject (`self.instance`), the
`many` flag and the `_data` cache slot set by `__init__`. -/
structure SerializerState where
  pyinstance : Value
  many : Bool
  cachedData : Option Value

/-- A compiled accessor.  `plain` getters are called as `getter(instance)`;
`bound` getters (from fields with `getter_takes_serializer = True`) are
called as `getter(self, instance)`. -/
inductive Getter where
  | plain (f : Value → Except PyError Value)
  | bound (f : SerializerState → Value → Except PyError Value)

/-- The getter `operator.attrgetter(k)` applied to a subject: attribute lookup,
`AttributeError` when absent (or when the subject has no attributes). -/
def attrgetterM (k : String) : Value → Except PyError Value
  | .vobj attrs =>
      match lookupFM attrs k with
      | some v => .ok v
      | none => .error .attributeError
  | _ => .error .attributeError

/-- The getter `operator.itemgetter(k)` with a string key: mapping lookup, `KeyError`
when absent, `TypeError` on non-mapping subjects (lists are not string
subscriptable). -/
def itemgetterM (k : String) : Value → Except PyError Value
  | .vdict items =>
      match lookupFM items k with
      | some v => .ok v
      | none => .error .keyError
  | _ => .error .typeError

/-- The class-level data a field's compilation consults: the class's
`default_getter` strategy (`attrgetter` for `Serializer`, `itemgetter` for
`DictSerializer`) and its methods (for `MethodField.as_getter`'s
`getattr(serializer_cls, method_name)`). -/
structure SerializerCls where
  defaultGetter : String → Value → Except PyError Value
  methods : List (String × (SerializerState → Value → Except PyError Value))

/-- A `Field` descriptor (`serpy.fields.Field` and its subclasses, encoded
as data).  `toValueOverride = none` means `to_value` is the inherited base
identity implementation, so `_is_to_value_overridden` is `false`;
`some f` means a subclass bound `f` as `to_value`.  `asGetter` is the
(possibly overridden) `as_getter` method; the base implementation returns
`none`. -/
structure Field where
  attr : Option String := none
  call : Bool := false
  label : Option String := none
  required : Bool := true
  toValueOverride : Option (Value → Except PyError Value) := none
  asGetter : String → SerializerCls → Option Getter := fun _ _ => none
  getter_takes_serializer : Bool := false

/-- Definition of `Field.to_value`: the bound override when present, else the base
identity implementation. -/
def Field.to_value (f : Field) : Value → Except PyError Value :=
  match f.toValueOverride with
  | some g => g
  | none => fun v => .ok v

/-- Definition of `Field._is_to_value_overridden`. -/
def Field.isToValueOverridden (f : Field) : Bool :=
  f.toValueOverride.isSome

/-- The `six.text_type` coercion of `StrField` (total on the modelled values,
like Python's `str`). -/
def pyStrOf : Value → String
  | .vnone => "None"
  | .vint n => toString n
  | .vstr s => s
  | .vbool b => if b then "True" else "False"
  | .vcallable _ => "<callable>"
  | .vcallableRaises _ => "<callable>"
  | .vlist _ => "<list>"
  | .vdict _ => "<dict>"
  | .vobj _ => "<object>"

def pyStr (v : Value) : Except PyError Value := .ok (.vstr (pyStrOf v))

/-- Decimal-digit accumulator for `pyParseInt`; returns `none` as soon as
a non-digit character appears (and for an empty digit run). -/
def parseDigits : List Char → Option Nat → Option Nat
  | [], acc => acc
  | c :: cs, acc =>
      if 48 ≤ c.toNat ∧ c.toNat ≤ 57 then
        parseDigits cs (some ((acc.getD 0) * 10 + (c.toNat - 48)))
      else none

/-- Python `int(...)` parsing of a decimal string literal: an optional
sign followed by at least one digit (leading/trailing whitespace is not
modelled); everything else is a `ValueError`. -/
def pyParseInt (s : String) : Option Int :=
  match s.data with
  | '-' :: cs => (parseDigits cs none).map (fun n => -(n : Int))
  | '+' :: cs => (parseDigits cs none).map (fun n => (n : Int))
  | cs => (parseDigits cs none).map (fun n => (n : Int))

/-- The `int(...)` coercion of `IntField`: ints and bools convert, numeric
strings parse (`ValueError` otherwise), everything else is a `TypeError` —
in particular `int(None)` raises. -/
def pyInt : Value → Except PyError Value
  | .vint n => .ok (.vint n)
  | .vbool b => .ok (.vint (if b then 1 else 0))
  | .vstr s =>
      match pyParseInt s with
      | some n => .ok (.vint n)
      | none => .error .valueError
  | _ => .error .typeError

/-- The `bool(...)` coercion of `BoolField` (total: Python truthiness). -/
def pyBool : Value → Except PyError Value
  | .vnone => .ok (.vbool false)
  | .vint n => .ok (.vbool (n != 0))
  | .vstr s => .ok (.vbool (s.length != 0))
  | .vbool b => .ok (.vbool b)
  | .vcallable _ => .ok (.vbool true)
  | .vcallableRaises _ => .ok (.vbool true)
  | .vlist xs => .ok (.vbool (xs.length != 0))
  | .vdict items => .ok (.vbool (items.length != 0))
  | .vobj _ => .ok (.vbool true)

/-- Definition of `serpy.fields.StrField`. -/
def StrField (base : Field := {}) : Field :=
  { base with toValueOverride := some pyStr }

/-- Definition of `serpy.fields.IntField`. -/
def IntField (base : Field := {}) : Field :=
  { base with toValueOverride := some pyInt }

/-- Definition of `serpy.fields.BoolField`. -/
def BoolField (base : Field := {}) : Field :=
  { base with toValueOverride := some pyBool }

/-- The lookup `getattr(serializer_cls, method_name)` for `MethodField.as_getter`.
(When the method is missing, Python raises at class-construction time; here
the getter raises `AttributeError` at call time — no claim touches this.) -/
def getattrMethod (cls : SerializerCls) (nm : String) :
    SerializerState → Value → Except PyError Value :=
  match lookupFM cls.methods nm with
  | some f => f
  | none => fun _ _ => .error .attributeError

/-- Definition of `serpy.fields.MethodField`: `as_getter` resolves
`method or 'get_<field name>'` on the serializer class and the getter takes
the serializer as first argument. -/
def MethodField (method : Option String := none) (base : Field := {}) : Field :=
  { base with
    getter_takes_serializer := true
    asGetter := fun serializer_field_name cls =>
      some (.bound (getattrMethod cls
        (match method with
         | some m => m
         | none => "get_" ++ serializer_field_name))) }

/-- Python `a or b` for an optional string `a` (as in `field.attr or name`
and `field.label or name`): yields `b` when `a` is `None` **or** the empty
string (both falsy), else the string held by `a`. -/
def pyOrElse : Option String → String → String
  | some s, b => if s = "" then b else s
  | none, b => b

/-- One compiled field tuple `(name, getter, to_value, call, required,
getter_takes_serializer)` as produced by `_compile_field_to_tuple`. -/
structure FieldTuple where
  name : String
  getter : Getter
  to_value : Option (Value → Except PyError Value)
  call : Bool
  required : Bool
  pass_self : Bool

/-- Definition of `serpy.serializer._compile_field_to_tuple`. -/
def _compile_field_to_tuple (field : Field) (name : String)
    (serializer_cls : SerializerCls) : FieldTuple :=
  let getter :=
    match field.asGetter name serializer_cls with
    | some g => g
    | none =>
        .plain (serializer_cls.defaultGetter (pyOrElse field.attr name))
  let to_value :=
    if field.isToValueOverridden then some field.to_value else none
  let outName := pyOrElse field.label name
  { name := outName, getter := getter, to_value := to_value,
    call := field.call, required := field.required,
    pass_self := field.getter_takes_serializer }

/-- An ordered field map (a Python `dict` of name ↦ `Field`). -/
abbrev FieldMap := List (String × Field)

/-- The base-class part of `SerializerMeta._get_fields`: walk the MRO
oldest-ancestor-first and `update` an empty dict with each serializer
ancestor's `_field_map`. -/
def baseMerge (mroFieldMaps : List FieldMap) : FieldMap :=
  mroFieldMaps.foldl dictUpdate []

/-- Definition of `SerializerMeta._get_fields`: merge ancestors' field maps (oldest
first), then `update` with the directly declared fields. -/
def _get_fields (direct_fields : FieldMap) (mroFieldMaps : List FieldMap) :
    FieldMap :=
  dictUpdate (baseMerge mroFieldMaps) direct_fields

/-- Definition of `SerializerMeta._compile_fields`. -/
def _compile_fields (field_map : FieldMap) (serializer_cls : SerializerCls) :
    List FieldTuple :=
  field_map.map (fun p => _compile_field_to_tuple p.2 p.1 serializer_cls)

/-- Retrieval failures recovered by `_serialize`'s `except (KeyError,
AttributeError)` clause. -/
def isRetrievalError : PyError → Bool
  | .keyError => true
  | .attributeError => true
  | _ => false

/-- The invoke step: `if call: result = result()`. -/
def invokeStep (ft : FieldTuple) (result : Value) : Except PyError Value :=
  if ft.call then callValue result else .ok result

/-- The conversion step: `if to_value: result = to_value(result)`. -/
def convertStep (ft : FieldTuple) (result : Value) : Except PyError Value :=
  match ft.to_value with
  | some tv => tv result
  | none => .ok result

/-- The body of `_serialize`'s loop for one compiled field: returns
`.ok none` when the field is skipped (`continue`), `.ok (some (n, r))`
when `r` is to be written under key `n`, `.error e` when the iteration
raises `e`. -/
def fieldStep (self : SerializerState) (pyinstance : Value)
    (ft : FieldTuple) : Except PyError (Option (String × Value)) :=
  if ft.pass_self then
    match ft.getter with
    | .bound g =>
        match g self pyinstance with
        | .ok result => .ok (some (ft.name, result))
        | .error e => .error e
    | .plain _ => .error .typeError
  else
    match ft.getter with
    | .bound _ => .error .typeError
    | .plain g =>
        match g pyinstance with
        | .error e =>
            if isRetrievalError e && !ft.required then .ok none
            else .error e
        | .ok result =>
            if ft.required || !isNone result then
              match invokeStep ft result with
              | .error e => .error e
              | .ok r₁ =>
                  match convertStep ft r₁ with
                  | .error e => .error e
                  | .ok r₂ => .ok (some (ft.name, r₂))
            else .ok (some (ft.name, result))

/-- The loop of `Serializer._serialize` over the compiled fields, carrying the
output dict `v`. -/
def serializeFields (self : SerializerState) (pyinstance : Value) :
    List FieldTuple → List (String × Value) →
    Except PyError (List (String × Value))
  | [], v => .ok v
  | ft :: rest, v =>
      match fieldStep self pyinstance ft with
      | .error e => .error e
      | .ok none => serializeFields self pyinstance rest v
      | .ok (some (n, r)) =>
          serializeFields self pyinstance rest (dictSet v n r)

/-- Definition of `Serializer._serialize`. -/
def Serializer_serialize (self : SerializerState) (pyinstance : Value)
    (fields : List FieldTuple) : Except PyError (List (String × Value)) :=
  serializeFields self pyinstance fields []

/-- Definition of `Serializer.to_value`: serialize one subject, or each element of the
subject when `many` is set. -/
def Serializer_to_value (compiled_fields : List FieldTuple)
    (self : SerializerState) (pyinstance : Value) : Except PyError Value :=
  if self.many then
    match pyinstance with
    | .vlist xs =>
        (xs.mapM (fun o => Serializer_serialize self o compiled_fields)).map
          (fun ds => .vlist (ds.map Value.vdict))
    | _ => .error .typeError
  else
    (Serializer_serialize self pyinstance compiled_fields).map Value.vdict

/-- Definition of `Serializer.__init__`: rejects a non-`None` `data` argument with a
`RuntimeError` before anything else; otherwise stores the subject, the
`many` flag and an empty `_data` cache. -/
def Serializer_init (pyinstance : Value) (many : Bool) (data : Option Value) :
    Except PyError SerializerState :=
  match data with
  | some _ =>
      .error (.runtimeError "serpy serializers do not support input validation")
  | none => .ok ⟨pyinstance, many, none⟩

/-- The `Serializer.data` property: compute `to_value` and cache it on
first access, return the cached value afterwards.  Returns the value and
the (possibly updated) instance state. -/
def Serializer_data (compiled_fields : List FieldTuple)
    (self : SerializerState) : Except PyError (Value × SerializerState) :=
  match self.cachedData with
  | some d => .ok (d, self)
  | none =>
      match Serializer_to_value compiled_fields self self.pyinstance with
      | .error e => .error e
      | .ok d => .ok (d, { self with cachedData := some d })

/-- The `Serializer` class-level default getter strategy (`attrgetter`). -/
def attrCls (methods : List (String × (SerializerState → Value → Except PyError Value)) := []) :
    SerializerCls :=
  ⟨attrgetterM, methods⟩

/-- The `DictSerializer` default getter strategy (`itemgetter`). -/
def dictCls (methods : List (String × (SerializerState → Value → Except PyError Value)) := []) :
    SerializerCls :=
  ⟨itemgetterM, methods⟩

/-! Lemmas about the dict model (`dictSet`, `dictUpdate`, `lookupFM`),
needed for the inheritance-merge claims. -/

theorem dictSet_fst {α : Type} (k : String) (v : α) (p : String × α) :
    (if p.1 = k then (k, v) else p).1 = p.1 := by
  by_cases h : p.1 = k <;> simp [h]

theorem keys_dictSet_of_mem {α : Type} {m : List (String × α)} {k : String}
    (v : α) (h : k ∈ m.map Prod.fst) :
    (dictSet m k v).map Prod.fst = m.map Prod.fst := by
  unfold dictSet
  rw [if_pos h, List.map_map]
  exact congrArg (fun f => List.map f m) (funext fun p => dictSet_fst k v p)

theorem keys_dictSet_of_not_mem {α : Type} {m : List (String × α)} {k : String}
    (v : α) (h : k ∉ m.map Prod.fst) :
    (dictSet m k v).map Prod.fst = m.map Prod.fst ++ [k] := by
  unfold dictSet
  rw [if_neg h, List.map_append]
  rfl

theorem keys_dictUpdate {α : Type} (d : List (String × α)) (m : List (String × α))
    (hd : (d.map Prod.fst).Nodup) :
    (dictUpdate m d).map Prod.fst
      = m.map Prod.fst
        ++ (d.map Prod.fst).filter (fun k => decide (k ∉ m.map Prod.fst)) := by
  induction d generalizing m with
  | nil => simp [dictUpdate]
  | cons p t ih =>
      obtain ⟨k, v⟩ := p
      simp only [List.map_cons, List.nodup_cons] at hd
      obtain ⟨hk, ht⟩ := hd
      show (dictUpdate (dictSet m k v) t).map Prod.fst = _
      rw [ih (dictSet m k v) ht]
      by_cases hmem : k ∈ m.map Prod.fst
      · rw [keys_dictSet_of_mem v hmem]
        simp [List.filter_cons, hmem]
      · rw [keys_dictSet_of_not_mem v hmem]
        have hcong : (t.map Prod.fst).filter
              (fun x => decide (x ∉ m.map Prod.fst ++ [k]))
            = (t.map Prod.fst).filter (fun x => decide (x ∉ m.map Prod.fst)) := by
          refine List.filter_congr ?_
          intro x hx
          have hxk : x ≠ k := fun hxe => hk (hxe ▸ hx)
          simp [List.mem_append, hxk]
        rw [hcong]
        simp [List.filter_cons, hmem, List.append_assoc]

theorem lookupFM_map_set {α : Type} (m : List (String × α)) (k : String) (v : α)
    (h : k ∈ m.map Prod.fst) :
    lookupFM (m.map (fun p => if p.1 = k then (k, v) else p)) k = some v := by
  induction m with
  | nil => simp at h
  | cons p t ih =>
      by_cases hp : p.1 = k
      · simp [lookupFM, hp]
      · have hkt : k ∈ t.map Prod.fst := by
          simp only [List.map_cons, List.mem_cons] at h
          rcases h with h | h
          · exact absurd h.symm hp
          · exact h
        simp [lookupFM, hp, ih hkt]

theorem lookupFM_map_set_ne {α : Type} (m : List (String × α)) (k : String)
    (v : α) (n : String) (h : n ≠ k) :
    lookupFM (m.map (fun p => if p.1 = k then (k, v) else p)) n = lookupFM m n := by
  induction m with
  | nil => rfl
  | cons p t ih =>
      by_cases hp : p.1 = k
      · have : k ≠ n := fun he => h he.symm
        simp [lookupFM, hp, this, ih]
      · simp [lookupFM, hp, ih]

theorem lookupFM_append_self {α : Type} (m : List (String × α)) (k : String)
    (v : α) (h : k ∉ m.map Prod.fst) :
    lookupFM (m ++ [(k, v)]) k = some v := by
  induction m with
  | nil => simp [lookupFM]
  | cons p t ih =>
      simp only [List.map_cons, List.mem_cons] at h
      push_neg at h
      have hp : p.1 ≠ k := fun he => h.1 he.symm
      simp [lookupFM, hp, ih h.2]

theorem lookupFM_append_single_ne {α : Type} (m : List (String × α)) (k : String)
    (v : α) (n : String) (h : n ≠ k) :
    lookupFM (m ++ [(k, v)]) n = lookupFM m n := by
  induction m with
  | nil => simp [lookupFM, Ne.symm h]
  | cons p t ih =>
      by_cases hp : p.1 = n
      · simp [lookupFM, hp]
      · simp [lookupFM, hp, ih]

theorem lookupFM_dictSet_self {α : Type} (m : List (String × α)) (k : String)
    (v : α) : lookupFM (dictSet m k v) k = some v := by
  unfold dictSet
  by_cases h : k ∈ m.map Prod.fst
  · rw [if_pos h]
    exact lookupFM_map_set m k v h
  · rw [if_neg h]
    exact lookupFM_append_self m k v h

theorem lookupFM_dictSet_ne {α : Type} (m : List (String × α)) (k : String)
    (v : α) (n : String) (h : n ≠ k) :
    lookupFM (dictSet m k v) n = lookupFM m n := by
  unfold dictSet
  by_cases hm : k ∈ m.map Prod.fst
  · rw [if_pos hm]
    exact lookupFM_map_set_ne m k v n h
  · rw [if_neg hm]
    exact lookupFM_append_single_ne m k v n h

theorem lookupFM_dictUpdate_not_mem {α : Type} (d : List (String × α))
    (m : List (String × α)) (n : String) (h : n ∉ d.map Prod.fst) :
    lookupFM (dictUpdate m d) n = lookupFM m n := by
  induction d generalizing m with
  | nil => rfl
  | cons p t ih =>
      obtain ⟨k, v⟩ := p
      simp only [List.map_cons, List.mem_cons] at h
      push_neg at h
      show lookupFM (dictUpdate (dictSet m k v) t) n = lookupFM m n
      rw [ih (dictSet m k v) h.2]
      exact lookupFM_dictSet_ne m k v n h.1

theorem lookupFM_dictUpdate_mem {α : Type} (d : List (String × α))
    (m : List (String × α)) (n : String) (f : α)
    (hd : (d.map Prod.fst).Nodup) (h : lookupFM d n = some f) :
    lookupFM (dictUpdate m d) n = some f := by
  induction d generalizing m with
  | nil => simp [lookupFM] at h
  | cons p t ih =>
      obtain ⟨k, v⟩ := p
      simp only [List.map_cons, List.nodup_cons] at hd
      obtain ⟨hk, ht⟩ := hd
      show lookupFM (dictUpdate (dictSet m k v) t) n = some f
      by_cases hp : k = n
      · subst hp
        have hv : v = f := by
          simpa [lookupFM] using h
        rw [lookupFM_dictUpdate_not_mem t (dictSet m k v) k hk,
          lookupFM_dictSet_self m k v]
        exact congrArg some hv
      · have h' : lookupFM t n = some f := by
          simpa [lookupFM, hp] using h
        exact ih (dictSet m k v) ht h'

/-! Lemmas unfolding one iteration of the `_serialize` loop. -/

theorem serializeFields_cons (self : SerializerState) (pyinstance : Value)
    (ft : FieldTuple) (rest : List FieldTuple) (v : List (String × Value)) :
    serializeFields self pyinstance (ft :: rest) v =
      match fieldStep self pyinstance ft with
      | .error e => .error e
      | .ok none => serializeFields self pyinstance rest v
      | .ok (some (n, r)) =>
          serializeFields self pyinstance rest (dictSet v n r) := rfl

theorem fieldStep_success_apply (self : SerializerState) (pyinstance : Value)
    (ft : FieldTuple) (g : Value → Except PyError Value) (result : Value)
    (hps : ft.pass_self = false) (hg : ft.getter = .plain g)
    (hres : g pyinstance = .ok result)
    (hcond : (ft.required || !isNone result) = true) :
    fieldStep self pyinstance ft =
      match invokeStep ft result with
      | .error e => .error e
      | .ok r₁ =>
          match convertStep ft r₁ with
          | .error e => .error e
          | .ok r₂ => .ok (some (ft.name, r₂)) := by
  unfold fieldStep
  rw [hps, hg]
  simp only [Bool.false_eq_true, if_false]
  rw [hres]
  simp only [hcond]
  simp

theorem fieldStep_success_skip (self : SerializerState) (pyinstance : Value)
    (ft : FieldTuple) (g : Value → Except PyError Value) (result : Value)
    (hps : ft.pass_self = false) (hg : ft.getter = .plain g)
    (hres : g pyinstance = .ok result)
    (hcond : (ft.required || !isNone result) = false) :
    fieldStep self pyinstance ft = .ok (some (ft.name, result)) := by
  unfold fieldStep
  rw [hps, hg]
  simp only [Bool.false_eq_true, if_false]
  rw [hres]
  simp only [hcond]
  simp

theorem fieldStep_retrieval_error (self : SerializerState) (pyinstance : Value)
    (ft : FieldTuple) (g : Value → Except PyError Value) (e : PyError)
    (hps : ft.pass_self = false) (hg : ft.getter = .plain g)
    (he : g pyinstance = .error e) :
    fieldStep self pyinstance ft =
      if isRetrievalError e && !ft.required then .ok none else .error e := by
  unfold fieldStep
  rw [hps, hg]
  simp only [Bool.false_eq_true, if_false]
  rw [he]

/-- Claim C1: for a non-context field whose retrieval succeeds, if the field
is required or the retrieved value is not `None`, the invoke step and then
the bound converter are applied and the result is written under the output
label; if the field is optional and the value is `None`, both steps are
skipped and `None` itself is written; a required field with a retrieved
`None` still goes through the invoke/convert steps. -/
theorem claim_C1_success_gating
    (self : SerializerState) (pyinstance : Value) (ft : FieldTuple)
    (rest : List FieldTuple) (v : List (String × Value))
    (g : Value → Except PyError Value) (result : Value)
    (hps : ft.pass_self = false) (hg : ft.getter = .plain g)
    (hres : g pyinstance = .ok result) :
    ((ft.required = true ∨ isNone result = false) →
      serializeFields self pyinstance (ft :: rest) v =
        (match invokeStep ft result with
         | .error e => .error e
         | .ok r₁ =>
             match convertStep ft r₁ with
             | .error e => .error e
             | .ok r₂ => serializeFields self pyinstance rest (dictSet v ft.name r₂)))
    ∧ ((ft.required = false ∧ result = Value.vnone) →
      serializeFields self pyinstance (ft :: rest) v =
        serializeFields self pyinstance rest (dictSet v ft.name Value.vnone))
    ∧ ((ft.required = true ∧ result = Value.vnone) →
      serializeFields self pyinstance (ft :: rest) v =
        (match invokeStep ft Value.vnone with
         | .error e => .error e
         | .ok r₁ =>
             match convertStep ft r₁ with
             | .error e => .error e
             | .ok r₂ => serializeFields self pyinstance rest (dictSet v ft.name r₂))) := by
  have main : ∀ hcond : (ft.required || !isNone result) = true,
      serializeFields self pyinstance (ft :: rest) v =
        (match invokeStep ft result with
         | .error e => .error e
         | .ok r₁ =>
             match convertStep ft r₁ with
             | .error e => .error e
             | .ok r₂ => serializeFields self pyinstance rest (dictSet v ft.name r₂)) := by
    intro hcond
    have hsa := fieldStep_success_apply self pyinstance ft g result hps hg hres hcond
    cases hI : invokeStep ft result with
    | error e =>
        have hstep : fieldStep self pyinstance ft = .error e := by
          rw [hsa]
          simp only [hI]
        rw [serializeFields_cons, hstep]
    | ok r₁ =>
        show serializeFields self pyinstance (ft :: rest) v =
          match convertStep ft r₁ with
          | Except.error e => Except.error e
          | Except.ok r₂ =>
              serializeFields self pyinstance rest (dictSet v ft.name r₂)
        cases hC : convertStep ft r₁ with
        | error e =>
            have hstep : fieldStep self pyinstance ft = .error e := by
              rw [hsa]
              simp only [hI, hC]
            rw [serializeFields_cons, hstep]
        | ok r₂ =>
            have hstep : fieldStep self pyinstance ft
                = .ok (some (ft.name, r₂)) := by
              rw [hsa]
              simp only [hI, hC]
            rw [serializeFields_cons, hstep]
  refine ⟨?_, ?_, ?_⟩
  · intro h
    refine main ?_
    rcases h with h | h
    · simp [h]
    · simp [h]
  · rintro ⟨hreq, hnone⟩
    subst hnone
    have hcond : (ft.required || !isNone Value.vnone) = false := by
      simp [hreq, isNone]
    rw [serializeFields_cons,
      fieldStep_success_skip self pyinstance ft g Value.vnone hps hg hres hcond]
  · rintro ⟨hreq, hnone⟩
    subst hnone
    exact main (by simp [hreq])

/-- Claim C2: a retrieval failure (`KeyError`/`AttributeError`) from a
non-context field's getter propagates uncaught when the field is required;
when the field is optional the field is omitted (the output dict is
unchanged) and serialization proceeds with the remaining fields. -/
theorem claim_C2_retrieval_failure
    (self : SerializerState) (pyinstance : Value) (ft : FieldTuple)
    (rest : List FieldTuple) (v : List (String × Value))
    (g : Value → Except PyError Value) (e : PyError)
    (hps : ft.pass_self = false) (hg : ft.getter = .plain g)
    (he : g pyinstance = .error e) (hre : isRetrievalError e = true) :
    (ft.required = true →
      serializeFields self pyinstance (ft :: rest) v = .error e)
    ∧ (ft.required = false →
      serializeFields self pyinstance (ft :: rest) v =
        serializeFields self pyinstance rest v) := by
  constructor
  · intro hreq
    rw [serializeFields_cons,
      fieldStep_retrieval_error self pyinstance ft g e hps hg he]
    simp [hreq]
  · intro hreq
    rw [serializeFields_cons,
      fieldStep_retrieval_error self pyinstance ft g e hps hg he]
    simp [hreq, hre]

/-- Claim C10: only `KeyError` and `AttributeError` from a non-context
field's getter are recoverable retrieval failures; any other exception
(e.g. `TypeError`) propagates to the caller even when the field is
optional. -/
theorem claim_C10_other_errors_propagate
    (self : SerializerState) (pyinstance : Value) (ft : FieldTuple)
    (rest : List FieldTuple) (v : List (String × Value))
    (g : Value → Except PyError Value) (e : PyError)
    (hps : ft.pass_self = false) (hg : ft.getter = .plain g)
    (he : g pyinstance = .error e)
    (h₁ : e ≠ .keyError) (h₂ : e ≠ .attributeError) :
    serializeFields self pyinstance (ft :: rest) v = .error e := by
  have hre : isRetrievalError e = false := by
    cases e <;> simp_all [isRetrievalError]
  rw [serializeFields_cons,
    fieldStep_retrieval_error self pyinstance ft g e hps hg he]
  simp [hre]

/-- Claim C5: for a compiled record with the serializer-context flag set,
the engine calls the getter with the serializer instance and the subject
and writes its return value directly under the output label — the
required/optional gate, retrieval-failure recovery, the invoke step and
the converter play no part (the result formula mentions none of them);
moreover every `MethodField` sets the flag and compilation propagates it. -/
theorem claim_C5_context_path
    (self : SerializerState) (pyinstance : Value) (ft : FieldTuple)
    (rest : List FieldTuple) (v : List (String × Value))
    (g : SerializerState → Value → Except PyError Value)
    (hps : ft.pass_self = true) (hg : ft.getter = .bound g) :
    (serializeFields self pyinstance (ft :: rest) v =
      (match g self pyinstance with
       | .error e => .error e
       | .ok r => serializeFields self pyinstance rest (dictSet v ft.name r)))
    ∧ (∀ method base, (MethodField method base).getter_takes_serializer = true)
    ∧ (∀ f n cls, (_compile_field_to_tuple f n cls).pass_self
        = f.getter_takes_serializer) := by
  refine ⟨?_, fun method base => rfl, fun f n cls => rfl⟩
  have hstep0 : fieldStep self pyinstance ft =
      match g self pyinstance with
      | Except.ok r => Except.ok (some (ft.name, r))
      | Except.error e => Except.error e := by
    unfold fieldStep
    rw [hps, hg]
    simp
  cases hG : g self pyinstance with
  | error e =>
      have hstep : fieldStep self pyinstance ft = .error e := by
        rw [hstep0]
        simp only [hG]
      rw [serializeFields_cons, hstep]
  | ok r =>
      have hstep : fieldStep self pyinstance ft = .ok (some (ft.name, r)) := by
        rw [hstep0]
        simp only [hG]
      rw [serializeFields_cons, hstep]

/-- Claim C4: failures of the invoke step or of the bound converter are
never caught by the serialization engine — they propagate to the caller
whatever the required flag is (the hypotheses leave `ft.required`
arbitrary, subject only to the step actually running). -/
theorem claim_C4_conversion_failures_propagate
    (self : SerializerState) (pyinstance : Value) (ft : FieldTuple)
    (rest : List FieldTuple) (v : List (String × Value))
    (g : Value → Except PyError Value) (result : Value)
    (hps : ft.pass_self = false) (hg : ft.getter = .plain g)
    (hres : g pyinstance = .ok result)
    (hgate : ft.required = true ∨ isNone result = false) :
    (∀ e, invokeStep ft result = .error e →
      serializeFields self pyinstance (ft :: rest) v = .error e)
    ∧ (∀ r₁ tv e, ft.to_value = some tv → invokeStep ft result = .ok r₁ →
      tv r₁ = .error e →
      serializeFields self pyinstance (ft :: rest) v = .error e) := by
  have hcond : (ft.required || !isNone result) = true := by
    rcases hgate with h | h
    · simp [h]
    · simp [h]
  constructor
  · intro e hinv
    have hstep : fieldStep self pyinstance ft = .error e := by
      rw [fieldStep_success_apply self pyinstance ft g result hps hg hres hcond]
      simp only [hinv]
    rw [serializeFields_cons, hstep]
  · intro r₁ tv e htv hinv hconv
    have hcs : convertStep ft r₁ = .error e := by
      unfold convertStep
      simp only [htv]
      exact hconv
    have hstep : fieldStep self pyinstance ft = .error e := by
      rw [fieldStep_success_apply self pyinstance ft g result hps hg hres hcond]
      simp only [hinv, hcs]
    rw [serializeFields_cons, hstep]

/-- Claim C9: constructing a serializer while passing a non-null `data`
argument raises a `RuntimeError` immediately — the constructor consults no
field (it takes none) — and construction without `data` never raises this
error; it just stores the subject, the `many` flag and an empty cache. -/
theorem claim_C9_input_data_rejected (pyinstance : Value) (many : Bool) :
    (∀ d : Value, Serializer_init pyinstance many (some d)
      = .error (.runtimeError "serpy serializers do not support input validation"))
    ∧ Serializer_init pyinstance many none = .ok ⟨pyinstance, many, none⟩ :=
  ⟨fun _ => rfl, rfl⟩

/-- Claim C6: the first successful read of `data` stores the computed
result in the instance's cache slot, and every later read of that instance
returns the stored result without replaying the plan — the second
conjunct holds for an arbitrary plan `fields'`, so no getter, invoke step
or converter of the original plan can be consulted again. -/
theorem claim_C6_data_cached
    (fields fields' : List FieldTuple) (self : SerializerState)
    (d : Value) (s' : SerializerState)
    (h : Serializer_data fields self = .ok (d, s')) :
    s'.cachedData = some d
    ∧ Serializer_data fields' s' = .ok (d, s') := by
  cases hc : self.cachedData with
  | some c =>
      simp only [Serializer_data, hc, Except.ok.injEq, Prod.mk.injEq] at h
      obtain ⟨hd, hs⟩ := h
      subst hd
      subst hs
      constructor
      · exact hc
      · simp only [Serializer_data, hc]
  | none =>
      simp only [Serializer_data, hc] at h
      cases ht : Serializer_to_value fields self self.pyinstance with
      | error e =>
          rw [ht] at h
          simp at h
      | ok d₀ =>
          rw [ht] at h
          simp only [Except.ok.injEq, Prod.mk.injEq] at h
          obtain ⟨hd, hs⟩ := h
          subst hd
          subst hs
          exact ⟨rfl, rfl⟩

/-- Counterexample to claim C7 as stated: a field with the set (but empty)
source name `attr = ""` is *not* keyed on that source name — the compiler
falls back to the declared name although a source name was set, because
the source uses Python truthiness (`field.attr or name`). -/
theorem claim_C7_counterexample :
    ({ attr := some "" } : Field).attr = some ""
    ∧ (_compile_field_to_tuple { attr := some "" } "x" (attrCls [])).getter
        ≠ Getter.plain ((attrCls []).defaultGetter "")
    ∧ (_compile_field_to_tuple { attr := some "" } "x" (attrCls [])).getter
        = Getter.plain ((attrCls []).defaultGetter "x") := by
  refine ⟨rfl, ?_, rfl⟩
  intro h
  have h1 : attrgetterM "x" = attrgetterM "" := Getter.plain.inj h
  have h2 := congrFun h1 (Value.vobj [("x", Value.vint 3)])
  simp [attrgetterM, lookupFM] at h2

/-- Claim C7 (amended): when a field's `as_getter` declines (returns
`None`), the compiler builds the default accessor from the class's
configured default strategy (`attrgetter` for `Serializer`, `itemgetter`
for `DictSerializer`) keyed on the field's `attr`, falling back to the
declared name exactly when `attr` is unset **or is the empty (falsy)
string**; likewise the record's output name is the explicit `label` when
set and non-empty, else the declared name. -/
theorem claim_C7_default_getter_and_label
    (field : Field) (name : String) (cls : SerializerCls)
    (hdecl : field.asGetter name cls = none) :
    ((_compile_field_to_tuple field name cls).getter
      = .plain (cls.defaultGetter (pyOrElse field.attr name)))
    ∧ (field.attr = none →
        (_compile_field_to_tuple field name cls).getter
          = .plain (cls.defaultGetter name))
    ∧ (field.attr = some "" →
        (_compile_field_to_tuple field name cls).getter
          = .plain (cls.defaultGetter name))
    ∧ (∀ a, field.attr = some a → a ≠ "" →
        (_compile_field_to_tuple field name cls).getter
          = .plain (cls.defaultGetter a))
    ∧ ((_compile_field_to_tuple field name cls).name = pyOrElse field.label name)
    ∧ (field.label = none → (_compile_field_to_tuple field name cls).name = name)
    ∧ (field.label = some "" →
        (_compile_field_to_tuple field name cls).name = name)
    ∧ (∀ l, field.label = some l → l ≠ "" →
        (_compile_field_to_tuple field name cls).name = l)
    ∧ ((attrCls []).defaultGetter = attrgetterM
        ∧ (dictCls []).defaultGetter = itemgetterM) := by
  refine ⟨?_, ?_, ?_, ?_, ?_, ?_, ?_, ?_, rfl, rfl⟩
  · simp [_compile_field_to_tuple, hdecl]
  · intro h
    simp [_compile_field_to_tuple, hdecl, h, pyOrElse]
  · intro h
    simp [_compile_field_to_tuple, hdecl, h, pyOrElse]
  · intro a h ha
    simp [_compile_field_to_tuple, hdecl, h, pyOrElse, ha]
  · simp [_compile_field_to_tuple]
  · intro h
    simp [_compile_field_to_tuple, h, pyOrElse]
  · intro h
    simp [_compile_field_to_tuple, h, pyOrElse]
  · intro l h hl
    simp [_compile_field_to_tuple, h, pyOrElse, hl]

/-- Claim C3: merging field maps across the inheritance chain (oldest
ancestor first, direct declarations last), a direct declaration whose name
already occurs in the merged ancestor map replaces the descriptor looked
up under that name but leaves the key sequence of the ancestor positions
untouched; only genuinely new names are appended at the end, in
declaration order; and the compiled plan lists one record per merged entry
in exactly that order. -/
theorem claim_C3_override_keeps_position
    (mroFieldMaps : List FieldMap) (direct_fields : FieldMap)
    (hd : (direct_fields.map Prod.fst).Nodup) :
    ((_get_fields direct_fields mroFieldMaps).map Prod.fst
      = (baseMerge mroFieldMaps).map Prod.fst
        ++ (direct_fields.map Prod.fst).filter
            (fun k => decide (k ∉ (baseMerge mroFieldMaps).map Prod.fst)))
    ∧ (∀ n f, lookupFM direct_fields n = some f →
        lookupFM (_get_fields direct_fields mroFieldMaps) n = some f)
    ∧ (∀ i : Nat, i < ((baseMerge mroFieldMaps).map Prod.fst).length →
        ((_get_fields direct_fields mroFieldMaps).map Prod.fst)[i]?
          = ((baseMerge mroFieldMaps).map Prod.fst)[i]?)
    ∧ (∀ cls, _compile_fields (_get_fields direct_fields mroFieldMaps) cls
        = (_get_fields direct_fields mroFieldMaps).map
            (fun p => _compile_field_to_tuple p.2 p.1 cls)) := by
  have hkeys : (_get_fields direct_fields mroFieldMaps).map Prod.fst
      = (baseMerge mroFieldMaps).map Prod.fst
        ++ (direct_fields.map Prod.fst).filter
            (fun k => decide (k ∉ (baseMerge mroFieldMaps).map Prod.fst)) :=
    keys_dictUpdate direct_fields (baseMerge mroFieldMaps) hd
  refine ⟨hkeys, ?_, ?_, fun cls => rfl⟩
  · intro n f hlk
    exact lookupFM_dictUpdate_mem direct_fields (baseMerge mroFieldMaps) n f hd hlk
  · intro i hi
    rw [hkeys]
    rw [List.getElem?_append, if_pos hi]

/-- Modelled from the spec (for the refined side of claim C8): a reference
per-field compilation that always binds the descriptor's transform
(`Field.to_value`) as the record's converter, performing no compile-time
identity optimization. -/
def _compile_field_to_tuple_ref (field : Field) (name : String)
    (serializer_cls : SerializerCls) : FieldTuple :=
  { _compile_field_to_tuple field name serializer_cls with
    to_value := some field.to_value }

/-- Reference plan compilation built on `_compile_field_to_tuple_ref`. -/
def _compile_fields_ref (field_map : FieldMap)
    (serializer_cls : SerializerCls) : List FieldTuple :=
  field_map.map (fun p => _compile_field_to_tuple_ref p.2 p.1 serializer_cls)

theorem fieldStep_to_value_id (self : SerializerState) (pyinstance : Value)
    (ft : FieldTuple) (h : ft.to_value = none) :
    fieldStep self pyinstance { ft with to_value := some (fun v => Except.ok v) }
      = fieldStep self pyinstance ft := by
  obtain ⟨nm, g, tv, c, r, ps⟩ := ft
  simp only at h
  subst h
  rfl

theorem fieldStep_ref_eq (self : SerializerState) (pyinstance : Value)
    (f : Field) (n : String) (cls : SerializerCls) :
    fieldStep self pyinstance (_compile_field_to_tuple_ref f n cls)
      = fieldStep self pyinstance (_compile_field_to_tuple f n cls) := by
  cases hov : f.toValueOverride with
  | some tv =>
      have hto : (_compile_field_to_tuple f n cls).to_value
          = some f.to_value := by
        simp [_compile_field_to_tuple, Field.isToValueOverridden, hov]
      have heq : _compile_field_to_tuple_ref f n cls
          = _compile_field_to_tuple f n cls := by
        unfold _compile_field_to_tuple_ref
        rw [← hto]
      rw [heq]
  | none =>
      have hfv : f.to_value = fun v => Except.ok v := by
        simp [Field.to_value, hov]
      have hto : (_compile_field_to_tuple f n cls).to_value = none := by
        simp [_compile_field_to_tuple, Field.isToValueOverridden, hov]
      have heq : _compile_field_to_tuple_ref f n cls
          = { _compile_field_to_tuple f n cls with
              to_value := some (fun v => Except.ok v) } := by
        unfold _compile_field_to_tuple_ref
        rw [hfv]
      rw [heq,
        fieldStep_to_value_id self pyinstance (_compile_field_to_tuple f n cls) hto]

theorem serializeFields_ref_eq (self : SerializerState) (pyinstance : Value)
    (fm : FieldMap) (cls : SerializerCls) :
    ∀ v, serializeFields self pyinstance (_compile_fields_ref fm cls) v
      = serializeFields self pyinstance (_compile_fields fm cls) v := by
  induction fm with
  | nil => intro v; rfl
  | cons p t ih =>
      intro v
      show serializeFields self pyinstance
          (_compile_field_to_tuple_ref p.2 p.1 cls :: _compile_fields_ref t cls) v
        = serializeFields self pyinstance
          (_compile_field_to_tuple p.2 p.1 cls :: _compile_fields t cls) v
      rw [serializeFields_cons, serializeFields_cons,
        fieldStep_ref_eq self pyinstance p.2 p.1 cls]
      cases fieldStep self pyinstance (_compile_field_to_tuple p.2 p.1 cls) with
      | error e => rfl
      | ok o =>
          cases o with
          | none => exact ih v
          | some pr =>
              obtain ⟨n, r⟩ := pr
              exact ih (dictSet v n r)

/-- Claim C8: the compile-time identity optimization (binding a converter
only when the descriptor's transform was overridden) is unobservable — on
every subject (single or `many`), the optimized plan produces exactly the
output of the reference engine that always applies the transform. -/
theorem claim_C8_identity_optimization_unobservable
    (fm : FieldMap) (cls : SerializerCls) (self : SerializerState)
    (pyinstance : Value) :
    Serializer_to_value (_compile_fields fm cls) self pyinstance
      = Serializer_to_value (_compile_fields_ref fm cls) self pyinstance := by
  have hser : ∀ o, Serializer_serialize self o (_compile_fields fm cls)
      = Serializer_serialize self o (_compile_fields_ref fm cls) := by
    intro o
    exact (serializeFields_ref_eq self o fm cls []).symm
  have hfun : (fun o => Serializer_serialize self o (_compile_fields fm cls))
      = fun o => Serializer_serialize self o (_compile_fields_ref fm cls) :=
    funext hser
  unfold Serializer_to_value
  cases hm : self.many with
  | true =>
      cases pyinstance <;> simp only [if_true]
      case vlist xs => rw [hfun]
  | false =>
      simp only [Bool.false_eq_true, if_false]
      rw [hser pyinstance]

/-! Concrete sample data used by the witness theorems below. -/

/-- A serializer instance state with a dummy subject. -/
def sampleSelf : SerializerState := ⟨Value.vnone, false, none⟩

/-- A subject object with a single attribute `x = 3`. -/
def sampleSubject : Value := Value.vobj [("x", Value.vint 3)]

/-- A compiled required attribute field `x`. -/
def sampleTupleReq : FieldTuple :=
  ⟨"x", Getter.plain (attrgetterM "x"), none, false, true, false⟩

/-- A compiled optional attribute field `y`. -/
def sampleTupleOpt : FieldTuple :=
  ⟨"y", Getter.plain (attrgetterM "y"), none, false, false, false⟩

/-- A compiled optional key field `x` (itemgetter-based). -/
def sampleTupleItem : FieldTuple :=
  ⟨"x", Getter.plain (itemgetterM "x"), none, false, false, false⟩

/-- A compiled optional `IntField`-style field `x` (converter `pyInt`). -/
def sampleTupleInt : FieldTuple :=
  ⟨"x", Getter.plain (attrgetterM "x"), some pyInt, false, false, false⟩

/-- A serializer method reading attribute `x` of the subject. -/
def sampleMethod : SerializerState → Value → Except PyError Value :=
  fun _ v => attrgetterM "x" v

/-- A compiled context-bound (`MethodField`-style) field `m`. -/
def sampleTupleBound : FieldTuple :=
  ⟨"m", Getter.bound sampleMethod, none, false, true, true⟩

/-- A serializer instance over `sampleSubject` with an empty cache. -/
def sampleInstance : SerializerState := ⟨sampleSubject, false, none⟩

/-- A subject object whose `x` attribute is a non-numeric string. -/
def sampleBadSubject : Value := Value.vobj [("x", Value.vstr "abc")]

/-- A plain default field descriptor. -/
def sampleField : Field := {}

/-- Witness for claim C1 at a concrete required field and subject. -/
theorem claim_C1_success_gating_witness :
    sampleTupleReq.pass_self = false
    ∧ sampleTupleReq.getter = Getter.plain (attrgetterM "x")
    ∧ attrgetterM "x" sampleSubject = Except.ok (Value.vint 3)
    ∧ (((sampleTupleReq.required = true ∨ isNone (Value.vint 3) = false) →
        serializeFields sampleSelf sampleSubject [sampleTupleReq] [] =
          (match invokeStep sampleTupleReq (Value.vint 3) with
           | .error e => .error e
           | .ok r₁ =>
               match convertStep sampleTupleReq r₁ with
               | .error e => .error e
               | .ok r₂ =>
                   serializeFields sampleSelf sampleSubject []
                     (dictSet [] sampleTupleReq.name r₂)))
      ∧ ((sampleTupleReq.required = false ∧ Value.vint 3 = Value.vnone) →
          serializeFields sampleSelf sampleSubject [sampleTupleReq] [] =
            serializeFields sampleSelf sampleSubject []
              (dictSet [] sampleTupleReq.name Value.vnone))
      ∧ ((sampleTupleReq.required = true ∧ Value.vint 3 = Value.vnone) →
          serializeFields sampleSelf sampleSubject [sampleTupleReq] [] =
            (match invokeStep sampleTupleReq Value.vnone with
             | .error e => .error e
             | .ok r₁ =>
                 match convertStep sampleTupleReq r₁ with
                 | .error e => .error e
                 | .ok r₂ =>
                     serializeFields sampleSelf sampleSubject []
                       (dictSet [] sampleTupleReq.name r₂)))) :=
  ⟨rfl, rfl, rfl,
    claim_C1_success_gating sampleSelf sampleSubject sampleTupleReq [] []
      (attrgetterM "x") (Value.vint 3) rfl rfl rfl⟩

/-- Witness for claim C2 at a concrete optional field missing on the
subject. -/
theorem claim_C2_retrieval_failure_witness :
    sampleTupleOpt.pass_self = false
    ∧ sampleTupleOpt.getter = Getter.plain (attrgetterM "y")
    ∧ attrgetterM "y" sampleSubject = Except.error PyError.attributeError
    ∧ isRetrievalError PyError.attributeError = true
    ∧ ((sampleTupleOpt.required = true →
        serializeFields sampleSelf sampleSubject [sampleTupleOpt] []
          = .error PyError.attributeError)
      ∧ (sampleTupleOpt.required = false →
        serializeFields sampleSelf sampleSubject [sampleTupleOpt] []
          = serializeFields sampleSelf sampleSubject [] [])) :=
  ⟨rfl, rfl, rfl, rfl,
    claim_C2_retrieval_failure sampleSelf sampleSubject sampleTupleOpt [] []
      (attrgetterM "y") PyError.attributeError rfl rfl rfl rfl⟩

/-- Witness for claim C10: an optional itemgetter field over an
unsubscriptable subject raises `TypeError` and it propagates. -/
theorem claim_C10_other_errors_propagate_witness :
    sampleTupleItem.pass_self = false
    ∧ sampleTupleItem.getter = Getter.plain (itemgetterM "x")
    ∧ itemgetterM "x" (Value.vint 7) = Except.error PyError.typeError
    ∧ PyError.typeError ≠ PyError.keyError
    ∧ PyError.typeError ≠ PyError.attributeError
    ∧ serializeFields sampleSelf (Value.vint 7) [sampleTupleItem] []
        = .error PyError.typeError :=
  ⟨rfl, rfl, rfl, by decide, by decide,
    claim_C10_other_errors_propagate sampleSelf (Value.vint 7) sampleTupleItem
      [] [] (itemgetterM "x") PyError.typeError rfl rfl rfl
      (by decide) (by decide)⟩

/-- Witness for claim C4: an optional `IntField`-style field whose subject
holds a malformed string; the coercion failure propagates. -/
theorem claim_C4_conversion_failures_propagate_witness :
    sampleTupleInt.pass_self = false
    ∧ sampleTupleInt.getter = Getter.plain (attrgetterM "x")
    ∧ attrgetterM "x" sampleBadSubject = Except.ok (Value.vstr "abc")
    ∧ (sampleTupleInt.required = true ∨ isNone (Value.vstr "abc") = false)
    ∧ ((∀ e, invokeStep sampleTupleInt (Value.vstr "abc") = .error e →
        serializeFields sampleSelf sampleBadSubject [sampleTupleInt] []
          = .error e)
      ∧ (∀ r₁ tv e, sampleTupleInt.to_value = some tv →
        invokeStep sampleTupleInt (Value.vstr "abc") = .ok r₁ →
        tv r₁ = .error e →
        serializeFields sampleSelf sampleBadSubject [sampleTupleInt] []
          = .error e)) :=
  ⟨rfl, rfl, rfl, Or.inr rfl,
    claim_C4_conversion_failures_propagate sampleSelf sampleBadSubject
      sampleTupleInt [] [] (attrgetterM "x") (Value.vstr "abc")
      rfl rfl rfl (Or.inr rfl)⟩

/-- Witness for claim C5 at a concrete `MethodField`-style record. -/
theorem claim_C5_context_path_witness :
    sampleTupleBound.pass_self = true
    ∧ sampleTupleBound.getter = Getter.bound sampleMethod
    ∧ ((serializeFields sampleSelf sampleSubject [sampleTupleBound] [] =
        (match sampleMethod sampleSelf sampleSubject with
         | .error e => .error e
         | .ok r =>
             serializeFields sampleSelf sampleSubject []
               (dictSet [] sampleTupleBound.name r)))
      ∧ (∀ method base, (MethodField method base).getter_takes_serializer = true)
      ∧ (∀ f n cls, (_compile_field_to_tuple f n cls).pass_self
          = f.getter_takes_serializer)) :=
  ⟨rfl, rfl,
    claim_C5_context_path sampleSelf sampleSubject sampleTupleBound [] []
      sampleMethod rfl rfl⟩

/-- Witness for claim C6: a first read over a one-field plan caches the
result, and a second read with a different (empty) plan returns it
unchanged. -/
theorem claim_C6_data_cached_witness :
    Serializer_data [sampleTupleReq] sampleInstance
      = .ok (Value.vdict [("x", Value.vint 3)],
          ⟨sampleSubject, false, some (Value.vdict [("x", Value.vint 3)])⟩)
    ∧ (SerializerState.cachedData
          ⟨sampleSubject, false, some (Value.vdict [("x", Value.vint 3)])⟩
        = some (Value.vdict [("x", Value.vint 3)])
      ∧ Serializer_data []
          ⟨sampleSubject, false, some (Value.vdict [("x", Value.vint 3)])⟩
        = .ok (Value.vdict [("x", Value.vint 3)],
            ⟨sampleSubject, false, some (Value.vdict [("x", Value.vint 3)])⟩)) :=
  ⟨rfl,
    claim_C6_data_cached [sampleTupleReq] [] sampleInstance
      (Value.vdict [("x", Value.vint 3)])
      ⟨sampleSubject, false, some (Value.vdict [("x", Value.vint 3)])⟩ rfl⟩

/-- Witness for claim C7 at the default field descriptor compiled against
the attribute-based class. -/
theorem claim_C7_default_getter_and_label_witness :
    sampleField.asGetter "x" (attrCls []) = none
    ∧ (((_compile_field_to_tuple sampleField "x" (attrCls [])).getter
        = .plain ((attrCls []).defaultGetter (pyOrElse sampleField.attr "x")))
      ∧ (sampleField.attr = none →
          (_compile_field_to_tuple sampleField "x" (attrCls [])).getter
            = .plain ((attrCls []).defaultGetter "x"))
      ∧ (sampleField.attr = some "" →
          (_compile_field_to_tuple sampleField "x" (attrCls [])).getter
            = .plain ((attrCls []).defaultGetter "x"))
      ∧ (∀ a, sampleField.attr = some a → a ≠ "" →
          (_compile_field_to_tuple sampleField "x" (attrCls [])).getter
            = .plain ((attrCls []).defaultGetter a))
      ∧ ((_compile_field_to_tuple sampleField "x" (attrCls [])).name
        = pyOrElse sampleField.label "x")
      ∧ (sampleField.label = none →
          (_compile_field_to_tuple sampleField "x" (attrCls [])).name = "x")
      ∧ (sampleField.label = some "" →
          (_compile_field_to_tuple sampleField "x" (attrCls [])).name = "x")
      ∧ (∀ l, sampleField.label = some l → l ≠ "" →
          (_compile_field_to_tuple sampleField "x" (attrCls [])).name = l)
      ∧ ((attrCls []).defaultGetter = attrgetterM
          ∧ (dictCls []).defaultGetter = itemgetterM)) :=
  ⟨rfl, claim_C7_default_getter_and_label sampleField "x" (attrCls []) rfl⟩

/-- An inherited field descriptor for the claim C3 witness. -/
def sampleFieldB : Field := {}

/-- An overriding field descriptor for the claim C3 witness. -/
def sampleFieldB2 : Field := IntField {}

/-- Witness for claim C3: direct fields `b` (overriding) and `c` (new)
merged over an ancestor declaring `a` then `b`. -/
theorem claim_C3_override_keeps_position_witness :
    (([("b", sampleFieldB2), ("c", sampleField)].map
        (Prod.fst (α := String) (β := Field))).Nodup)
    ∧ (((_get_fields [("b", sampleFieldB2), ("c", sampleField)]
          [[("a", sampleField), ("b", sampleFieldB)]]).map Prod.fst
        = (baseMerge [[("a", sampleField), ("b", sampleFieldB)]]).map Prod.fst
          ++ ([("b", sampleFieldB2), ("c", sampleField)].map Prod.fst).filter
              (fun k => decide (k ∉ (baseMerge
                [[("a", sampleField), ("b", sampleFieldB)]]).map Prod.fst)))
      ∧ (∀ n f, lookupFM [("b", sampleFieldB2), ("c", sampleField)] n = some f →
          lookupFM (_get_fields [("b", sampleFieldB2), ("c", sampleField)]
            [[("a", sampleField), ("b", sampleFieldB)]]) n = some f)
      ∧ (∀ i : Nat,
          i < ((baseMerge [[("a", sampleField), ("b", sampleFieldB)]]).map
            Prod.fst).length →
          ((_get_fields [("b", sampleFieldB2), ("c", sampleField)]
              [[("a", sampleField), ("b", sampleFieldB)]]).map Prod.fst)[i]?
            = ((baseMerge [[("a", sampleField), ("b", sampleFieldB)]]).map
                Prod.fst)[i]?)
      ∧ (∀ cls, _compile_fields (_get_fields
            [("b", sampleFieldB2), ("c", sampleField)]
            [[("a", sampleField), ("b", sampleFieldB)]]) cls
          = (_get_fields [("b", sampleFieldB2), ("c", sampleField)]
              [[("a", sampleField), ("b", sampleFieldB)]]).map
              (fun p => _compile_field_to_tuple p.2 p.1 cls))) :=
  ⟨by decide,
    claim_C3_override_keeps_position
      [[("a", sampleField), ("b", sampleFieldB)]]
      [("b", sampleFieldB2), ("c", sampleField)] (by decide)⟩

end Serpy
